import Mathlib

/-!
Verification of the weasel event-sourcing core against its specification.

Shallow embedding of the relevant parts of the source:
- src/src/entropy.rs  : the entropy model front-end (Entropy::generate).
- src/src/round.rs    : the round state machine (StartRound, EndRound).
- src/src/event.rs    : event prototypes, trigger decorators, the client
  sink registry (MultiClientSink) and event-id range normalization.
- src/src/object.rs   : CreateObject / RemoveObject (only their rights).

Rust machine integers involved (EventId = u32, EventSinkId = u16) are only
compared, never subject to overflowing arithmetic, so they are embedded as
Nat. Fallible Rust code returning WeaselResult is embedded with Except or
with an Option error component; a Rust panic is embedded as Option.none.
Rule-supplied callbacks (round rules, actor rules, status updates), which
live outside the verified core, are embedded as opaque-free function
parameters over an abstract rule-state type.
-/

namespace Weasel

/-! ## Entropy (src/src/entropy.rs)

`Entropy::generate` dispatches on `low.partial_cmp(&high)`. The Rust
`PartialOrd` contract for a lawful implementation is embedded by deriving
the three-way comparison from a Lean partial order with decidable `≤`:
`Some(Less)`, `Some(Greater)`, `Some(Equal)` or `None` (incomparable). -/

/-- Embedding of a lawful Rust `PartialOrd::partial_cmp` over a partial
order with decidable `≤`. Returns `none` exactly when the two values are
incomparable. -/
def pcmp {α : Type} [PartialOrder α] [@DecidableRel α (· ≤ ·)] (a b : α) : Option Ordering :=
  if a ≤ b then
    if b ≤ a then some Ordering.eq else some Ordering.lt
  else
    if b ≤ a then some Ordering.gt else none

/-- Embedding of `Entropy::generate` (src/src/entropy.rs lines 29-36).
The underlying `EntropyRules::generate` is the parameter `rules`, embedded
in state-passing style: it takes the entropy model and the two bounds and
returns the updated model with the generated value. The source panics on
an incomparable pair, embedded as `none`. -/
def Entropy.generate {α μ : Type} [PartialOrder α] [@DecidableRel α (· ≤ ·)]
    (rules : μ → α → α → μ × α) (model : μ) (low high : α) : Option (μ × α) :=
  match pcmp low high with
  | some Ordering.lt => some (rules model low high)
  | some Ordering.gt => some (rules model high low)
  | some Ordering.eq => some (model, low)
  | none => none

/-! ## Round state machine (src/src/round.rs) -/

/-- Embedding of `RoundState` (src/src/round.rs lines 124-132). The
`IndexSet` payload of `Started` is embedded as an insertion-ordered,
duplicate-free list. -/
inductive RoundState (EI : Type) where
  | Ready : RoundState EI
  | Started : List EI → RoundState EI
deriving DecidableEq, Repr

/-- The `WeaselError` variants produced by the round events. -/
inductive RoundError (EI : Type) where
  | RoundInProgress : RoundError EI
  | NoRoundInProgress : RoundError EI
  | NotAnActor : EI → RoundError EI
  | ActorNotEligible : EI → RoundError EI
  | EntityNotFound : EI → RoundError EI
deriving DecidableEq, Repr

/-- The part of `Battle` that the round events read and mutate.
`isActor` embeds `EntityId::is_actor`, `actor` embeds
`battle.entities().actor(&id)` (with `A` the actor data), `eligible`
embeds `battle.rounds().eligible(actor)`. `roundsStarted` is the
`ROUNDS_STARTED` metric. The rule callbacks run by `StartRound::apply`
for one actor (`RoundsRules::on_start`, `ActorRules::on_round_start`,
`update_statuses`) are folded into `startCallbacks`, and those run by
`EndRound::apply` (`on_round_end`, `Rounds::on_end`, `check_objectives`)
into `endCallbacks`; both act on an abstract rule state `σ` and do not
touch the round state, which matches the source where the round state is
written only by `set_state` in the two apply functions. -/
structure RoundBattle (EI A σ : Type) where
  roundState : RoundState EI
  isActor : EI → Bool
  actor : EI → Option A
  eligible : A → Bool
  roundsStarted : Nat
  ruleState : σ
  startCallbacks : σ → A → σ
  endCallbacks : σ → A → σ

/-- Embedding of `IndexSet::insert`: appends the element only if it is
not already present, keeping the first occurrence and insertion order. -/
def indexSetInsert {EI : Type} [DecidableEq EI] (s : List EI) (x : EI) : List EI :=
  if x ∈ s then s else s ++ [x]

/-- Embedding of `self.ids.iter().cloned().collect::<IndexSet<_>>()`
(src/src/round.rs line 357): inserts the ids in order into an empty
index set. -/
def indexSetFromList {EI : Type} [DecidableEq EI] (l : List EI) : List EI :=
  l.foldl indexSetInsert []

/-- The per-id verification loop of `StartRound::verify`
(src/src/round.rs lines 337-351): not an actor, missing entity and
ineligible actor each produce their error. -/
def verifyActors {EI A σ : Type} (b : RoundBattle EI A σ) :
    List EI → Except (RoundError EI) Unit
  | [] => Except.ok ()
  | id :: rest =>
    if !(b.isActor id) then Except.error (RoundError.NotAnActor id)
    else
      match b.actor id with
      | some a =>
        if !(b.eligible a) then Except.error (RoundError.ActorNotEligible id)
        else verifyActors b rest
      | none => Except.error (RoundError.EntityNotFound id)

/-- Embedding of `StartRound::verify` (src/src/round.rs lines 332-353):
fails with `RoundInProgress` if the state is `Started`, then verifies
every id. -/
def StartRound.verify {EI A σ : Type} (b : RoundBattle EI A σ) (ids : List EI) :
    Except (RoundError EI) Unit :=
  match b.roundState with
  | RoundState.Started _ => Except.error RoundError.RoundInProgress
  | RoundState.Ready => verifyActors b ids

/-- The per-actor loop of `StartRound::apply`: looks the actor up
(the source panics when it is missing, embedded as `none`) and runs the
start callbacks. -/
def startLoop {EI A σ : Type} (b : RoundBattle EI A σ) : σ → List EI → Option σ
  | st, [] => some st
  | st, id :: rest =>
    match b.actor id with
    | none => none
    | some a => startLoop b (b.startCallbacks st a) rest

/-- Embedding of `StartRound::apply` (src/src/round.rs lines 355-397):
sets the state to `Started` with the deduplicated id set, increments the
`ROUNDS_STARTED` metric by one and runs the callbacks for each actor of
the set in order. -/
def StartRound.apply {EI A σ : Type} [DecidableEq EI]
    (b : RoundBattle EI A σ) (ids : List EI) : Option (RoundBattle EI A σ) :=
  match startLoop b b.ruleState (indexSetFromList ids) with
  | none => none
  | some st =>
    some { b with
           roundState := RoundState.Started (indexSetFromList ids)
           roundsStarted := b.roundsStarted + 1
           ruleState := st }

/-- Embedding of `EndRound::verify` (src/src/round.rs lines 514-520):
fails with `NoRoundInProgress` if the state is `Ready`. -/
def EndRound.verify {EI A σ : Type} (b : RoundBattle EI A σ) :
    Except (RoundError EI) Unit :=
  match b.roundState with
  | RoundState.Ready => Except.error RoundError.NoRoundInProgress
  | RoundState.Started _ => Except.ok ()

/-- The per-actor loop of `EndRound::apply`: actor lookup (panic on a
missing actor, embedded as `none`) followed by the end callbacks. -/
def endLoop {EI A σ : Type} (b : RoundBattle EI A σ) : σ → List EI → Option σ
  | st, [] => some st
  | st, id :: rest =>
    match b.actor id with
    | none => none
    | some a => endLoop b (b.endCallbacks st a) rest

/-- Embedding of `EndRound::apply` (src/src/round.rs lines 522-564):
reads the `Started` actor set (the source panics when the state is not
`Started`, embedded as `none`), runs the end callbacks for every actor in
the stored order and finally sets the state back to `Ready`. -/
def EndRound.apply {EI A σ : Type} (b : RoundBattle EI A σ) :
    Option (RoundBattle EI A σ) :=
  match b.roundState with
  | RoundState.Ready => none
  | RoundState.Started actors =>
    match endLoop b b.ruleState actors with
    | none => none
    | some st => some { b with roundState := RoundState.Ready, ruleState := st }

/-- The verify-then-apply step of the event pipeline for `StartRound`:
per the contract documented on `Event::apply` (src/src/event.rs line 129,
"This method is called only if `verify` succeeded") and spec section 4.1,
`apply` runs exactly when `verify` returned success. -/
def StartRound.process {EI A σ : Type} [DecidableEq EI]
    (b : RoundBattle EI A σ) (ids : List EI) :
    Except (RoundError EI) (Option (RoundBattle EI A σ)) :=
  match StartRound.verify b ids with
  | Except.error e => Except.error e
  | Except.ok _ => Except.ok (StartRound.apply b ids)

/-- The verify-then-apply step of the event pipeline for `EndRound`,
under the same `Event::apply` contract. -/
def EndRound.process {EI A σ : Type} (b : RoundBattle EI A σ) :
    Except (RoundError EI) (Option (RoundBattle EI A σ)) :=
  match EndRound.verify b with
  | Except.error e => Except.error e
  | Except.ok _ => Except.ok (EndRound.apply b)

/-! ## Event prototypes and trigger decorators (src/src/event.rs) -/

/-- Embedding of `EventPrototype` (src/src/event.rs lines 265-272): the
optional origin, the boxed event payload (abstract type `E`) and the
optional condition predicate over the battle state (abstract type `W`). -/
structure EventPrototype (E W : Type) where
  origin : Option Nat
  event : E
  condition : Option (W → Bool)

/-- Embedding of `EventPrototype::new` (src/src/event.rs lines 276-282):
no origin and no condition. -/
def EventPrototype.new {E W : Type} (e : E) : EventPrototype E W :=
  { origin := none, event := e, condition := none }

/-- Embedding of an `EventTrigger` as the data it produces: its `event()`
and its `prototype()`. The default trait implementation of `prototype()`
wraps `event()` with `EventPrototype::new`; decorators override it. -/
structure Trigger (E W : Type) where
  event : E
  prototype : EventPrototype E W

/-- A trigger using the default `prototype()` implementation of the
`EventTrigger` trait (src/src/event.rs lines 476-478). -/
def Trigger.base {E W : Type} (e : E) : Trigger E W :=
  { event := e, prototype := EventPrototype.new e }

/-- Embedding of the `Conditional` decorator (src/src/event.rs lines
788-808): same event, and `prototype()` takes the inner prototype and
sets its condition. -/
def Conditional.wrap {E W : Type} (t : Trigger E W) (c : W → Bool) : Trigger E W :=
  { event := t.event, prototype := { t.prototype with condition := some c } }

/-- Embedding of the `Originated` decorator (src/src/event.rs lines
1076-1095): same event, and `prototype()` takes the inner prototype and
force-overwrites its origin. -/
def Originated.wrap {E W : Type} (t : Trigger E W) (origin : Nat) : Trigger E W :=
  { event := t.event, prototype := { t.prototype with origin := some origin } }

/-! ## Client sink registry (src/src/event.rs)

A client sink is embedded by its id together with the outcome of its
`send` on each versioned event; events themselves are abstracted to a
`Nat` label. -/

/-- Embedding of a registered `ClientSink` trait object: its
`EventSinkId` and, for every event, whether its `send` succeeds. -/
structure CSink where
  id : Nat
  sendOk : Nat → Bool

/-- The `WeaselError` variants produced by the sink registry functions. -/
inductive SinkError where
  | DuplicatedEventSink : Nat → SinkError
  | EventSinkNotFound : Nat → SinkError
  | InvalidEventRange : Nat → Nat → Nat → SinkError
  | EventSinkSendError : SinkError
deriving DecidableEq, Repr

/-- Embedding of `MultiClientSink::add` (src/src/event.rs lines 848-855):
a duplicate id is rejected with `DuplicatedEventSink` leaving the
registry unchanged, otherwise the sink is pushed at the back. The pair
returned is the error, if any, and the registry afterwards. -/
def MultiClientSink.add (sinks : List CSink) (s : CSink) :
    Option SinkError × List CSink :=
  if sinks.any (fun e => e.id == s.id) then
    (some (SinkError.DuplicatedEventSink s.id), sinks)
  else
    (none, sinks ++ [s])

/-- The event loop inside `MultiClientSink::send`: the first failing
`send` produces the error returned by the `result?` early return. -/
def sendEventsLoop (s : CSink) : List Nat → Option SinkError
  | [] => none
  | ev :: rest =>
    if s.sendOk ev then sendEventsLoop s rest else some SinkError.EventSinkSendError

/-- Embedding of `MultiClientSink::send` (src/src/event.rs lines
859-879): find the sink by id (`EventSinkNotFound` otherwise), send the
events one by one; on the first failure the sink is disconnected and
removed and the error is returned. The triple returned is the error, the
registry afterwards, and the ids whose `on_disconnect` was invoked, in
invocation order. -/
def MultiClientSink.send (sinks : List CSink) (id : Nat) (events : List Nat) :
    Option SinkError × List CSink × List Nat :=
  match sinks.findIdx? (fun e => e.id == id) with
  | none => (some (SinkError.EventSinkNotFound id), sinks, [])
  | some idx =>
    match sinks[idx]? with
    | none => (some (SinkError.EventSinkNotFound id), sinks, [])
    | some s =>
      match sendEventsLoop s events with
      | none => (none, sinks, [])
      | some err => (some err, sinks.eraseIdx idx, [s.id])

/-- The first pass of `MultiClientSink::send_all` (src/src/event.rs lines
893-899): collect into `failed_sinks_index` the position of every sink
whose `send` of `ev` fails, enumerating from position `i`. -/
def failedSinksIndex (ev : Nat) : List CSink → Nat → List Nat
  | [], _ => []
  | s :: rest, i =>
    if s.sendOk ev then failedSinksIndex ev rest (i + 1)
    else i :: failedSinksIndex ev rest (i + 1)

/-- The second pass of `MultiClientSink::send_all` (src/src/event.rs
lines 900-903): for each recorded index, in order, invoke
`on_disconnect` on the sink now sitting at that index and remove it.
Indexing out of bounds panics in Rust, embedded as `none`. Returns the
registry afterwards and the ids whose `on_disconnect` was invoked, in
invocation order. -/
def removeFailedLoop : List CSink → List Nat → Option (List CSink × List Nat)
  | sinks, [] => some (sinks, [])
  | sinks, i :: rest =>
    match sinks[i]? with
    | none => none
    | some s =>
      match removeFailedLoop (sinks.eraseIdx i) rest with
      | none => none
      | some (finalSinks, ds) => some (finalSinks, s.id :: ds)

/-- Embedding of `MultiClientSink::send_all` (src/src/event.rs lines
892-904): send `ev` to every sink, recording the indices of the failing
ones, then disconnect and remove them by their recorded index. -/
def MultiClientSink.send_all (sinks : List CSink) (ev : Nat) :
    Option (List CSink × List Nat) :=
  removeFailedLoop sinks (failedSinksIndex ev sinks 0)

/-- Embedding of `normalize_range` (src/src/event.rs lines 1015-1027):
reject with `InvalidEventRange` when the range start exceeds its end or
the end exceeds the history length, accept otherwise. -/
def normalize_range (first last historyLen : Nat) : Except SinkError (Nat × Nat) :=
  if first > last ∨ last > historyLen then
    Except.error (SinkError.InvalidEventRange first last historyLen)
  else
    Except.ok (first, last)

/-- Embedding of `Battle::versioned_events` over a normalized range: the
history slice `[first, last)`. -/
def versioned_events (history : List Nat) (r : Nat × Nat) : List Nat :=
  (history.drop r.1).take (r.2 - r.1)

/-- Embedding of `MultiClientSinkHandleMut::send_range` (src/src/event.rs
lines 997-1001): normalize the range against the history length, then
send the selected history slice to the sink with the given id. -/
def send_range (sinks : List CSink) (history : List Nat) (id : Nat)
    (first last : Nat) : Option SinkError × List CSink × List Nat :=
  match normalize_range first last history.length with
  | Except.error e => (some e, sinks, [])
  | Except.ok r => MultiClientSink.send sinks id (versioned_events history r)

/-- Embedding of `MultiClientSinkHandleMut::add_sink_range`
(src/src/event.rs lines 982-994): normalize the range, add the sink
(stopping on a duplicate id), then send it the selected history slice. -/
def add_sink_range (sinks : List CSink) (history : List Nat) (s : CSink)
    (first last : Nat) : Option SinkError × List CSink × List Nat :=
  match normalize_range first last history.length with
  | Except.error e => (some e, sinks, [])
  | Except.ok r =>
    match MultiClientSink.add sinks s with
    | (some e, sinks') => (some e, sinks', [])
    | (none, sinks') => MultiClientSink.send sinks' s.id (versioned_events history r)

/-- Embedding of `MultiClientSinkHandleMut::add_sink_from`
(src/src/event.rs lines 964-976): an `add_sink_range` whose range runs
from the given event id to the history length. -/
def add_sink_from (sinks : List CSink) (history : List Nat) (s : CSink)
    (eventId : Nat) : Option SinkError × List CSink × List Nat :=
  add_sink_range sinks history s eventId history.length

/-! ## Event rights (src/src/event.rs, src/src/entropy.rs,
src/src/round.rs, src/src/object.rs) -/

/-- Embedding of `EventKind` (src/src/event.rs lines 23-84). -/
inductive EventKind where
  | DummyEvent | CreateTeam | CreateCreature | CreateObject | MoveEntity
  | StartRound | EndRound | EnvironmentRound | ActivateAbility | ApplyImpact
  | AlterStatistics | AlterStatuses | AlterAbilities | RegenerateStatistics
  | RegenerateAbilities | InflictStatus | ClearStatus | ConvertCreature
  | SetRelations | ConcludeObjectives | RemoveCreature | RemoveObject
  | RemoveTeam | AlterSpace | ResetEntropy | ResetObjectives | ResetRounds
  | ResetSpace | EndBattle
  | UserEvent : Nat → EventKind
deriving DecidableEq, Repr

/-- Embedding of `EventRights` (src/src/event.rs lines 87-96), with team
ids abstracted to `TId`. -/
inductive EventRights (TId : Type) where
  | None : EventRights TId
  | Server : EventRights TId
  | Team : TId → EventRights TId
  | Teams : List TId → EventRights TId
deriving DecidableEq, Repr

/-- The rights-relevant slice of an `Event` trait implementation: its
kind and its `rights()`. The default value of the `rights` field embeds
the provided implementation of `Event::rights` (src/src/event.rs lines
147-153), which returns `EventRights::Server`; an implementation that
does not override `rights` leaves the field at this default. -/
structure EventImpl (TId : Type) where
  kind : EventKind
  rights : EventRights TId := EventRights.Server

/-- `ResetEntropy` implements `Event` with no `rights` override
(src/src/entropy.rs lines 170-190). -/
def ResetEntropy.impl (TId : Type) : EventImpl TId :=
  { kind := EventKind.ResetEntropy }

/-- `ResetRounds` implements `Event` with no `rights` override
(src/src/round.rs lines 689-713). -/
def ResetRounds.impl (TId : Type) : EventImpl TId :=
  { kind := EventKind.ResetRounds }

/-- `EnvironmentRound` implements `Event` with no `rights` override
(src/src/round.rs lines 806-845). -/
def EnvironmentRound.impl (TId : Type) : EventImpl TId :=
  { kind := EventKind.EnvironmentRound }

/-- `CreateObject` implements `Event` with no `rights` override
(src/src/object.rs lines 187-244). -/
def CreateObject.impl (TId : Type) : EventImpl TId :=
  { kind := EventKind.CreateObject }

/-- `RemoveObject` implements `Event` with no `rights` override
(src/src/object.rs lines 358-393). -/
def RemoveObject.impl (TId : Type) : EventImpl TId :=
  { kind := EventKind.RemoveObject }

/-- `DummyEvent` overrides `Event::rights` to return `EventRights::None`
(src/src/event.rs lines 562-565). -/
def DummyEvent.impl (TId : Type) : EventImpl TId :=
  { kind := EventKind.DummyEvent, rights := EventRights.None }

/-- Modelled from the spec: the rights check of spec section 4.1 step 3
performed by the server (server.rs is not under src/) for a submission
authenticated as a player, against the required `EventRights`: `None` is
unrestricted, `Server` is reserved to the trusted authority and so denied
to every player, `Team`/`Teams` require the player to control the named
team(s). -/
def rightsAllowPlayer {TId : Type} [DecidableEq TId] (playerTeams : List TId) :
    EventRights TId → Bool
  | EventRights.None => true
  | EventRights.Server => false
  | EventRights.Team t => playerTeams.contains t
  | EventRights.Teams ts => ts.all (fun t => playerTeams.contains t)

/-! ## Top-level processing of a prototype (for the conditional-drop
behavior)

The processing entry point itself (battle.rs / server.rs) is not under
src/; it is modelled here from spec section 4.1 steps 1-5, with the
outcome of the condition check pinned by the `Conditional` doctest in
src/src/event.rs (lines 745-758), which asserts that firing a prototype
whose condition is false yields `Err` unfolding to
`WeaselError::ConditionUnsatisfied`. -/

/-- A prototype as seen by the processing pipeline: origin, a label
identifying the event payload, the outcome of the payload's `verify`
against the world, the payload's `apply` on the world, and the optional
condition. -/
structure PipelinePrototype (W : Type) where
  origin : Option Nat
  label : Nat
  verifyOk : W → Bool
  applyFn : W → W
  condition : Option (W → Bool)

/-- The server state seen by the pipeline: the world and the History,
an append-only list of committed (EventId, event label) pairs in which
ids are assigned densely from 0 at commit time. -/
structure PipelineState (W : Type) where
  world : W
  history : List (Nat × Nat)

/-- Errors returned by top-level processing. -/
inductive PipelineError where
  | ConditionUnsatisfied : PipelineError
  | InvalidEvent : PipelineError
deriving DecidableEq, Repr

/-- Commit of a verified prototype: assign the next `EventId` (the
History length, ids being dense from 0), apply the payload to the world
and append to History. -/
def commitPrototype {W : Type} (s : PipelineState W) (p : PipelinePrototype W) :
    Option PipelineError × PipelineState W :=
  (none,
   { world := p.applyFn s.world
     history := s.history ++ [(s.history.length, p.label)] })

/-- Modelled from the spec: the top-level processing of one event
prototype (spec section 4.1 steps 1-5; battle.rs / server.rs are not
under src/). Verification failure returns an error and leaves the state
unchanged; a condition evaluating to false returns
`ConditionUnsatisfied` and leaves the state unchanged, as pinned by the
`Conditional` doctest in src/src/event.rs lines 745-758; otherwise the
prototype is committed. The pair returned is the error, if any, and the
server state afterwards. -/
def processPrototype {W : Type} (s : PipelineState W) (p : PipelinePrototype W) :
    Option PipelineError × PipelineState W :=
  if p.verifyOk s.world then
    match p.condition with
    | some c =>
      if c s.world then commitPrototype s p
      else (some PipelineError.ConditionUnsatisfied, s)
    | none => commitPrototype s p
  else
    (some PipelineError.InvalidEvent, s)

end Weasel


namespace Weasel

/-- A four-element diamond poset with an incomparable pair, used to
exercise the incomparable branch of the entropy front-end. -/
inductive Diamond where
  | bot | left | right | top
deriving DecidableEq, Repr, Fintype

/-- Boolean order test for `Diamond`: bottom below everything, top above
everything, `left` and `right` incomparable. -/
def Diamond.below : Diamond → Diamond → Bool
  | Diamond.bot, _ => true
  | _, Diamond.top => true
  | Diamond.left, Diamond.left => true
  | Diamond.right, Diamond.right => true
  | _, _ => false

instance : LE Diamond := ⟨fun x y => Diamond.below x y = true⟩

instance : @DecidableRel Diamond (· ≤ ·) :=
  fun x y => inferInstanceAs (Decidable (Diamond.below x y = true))

instance : PartialOrder Diamond where
  le := (· ≤ ·)
  le_refl := by decide
  le_trans := by decide
  le_antisymm := by decide

end Weasel

namespace Weasel

/-! ## Helper lemmas -/

theorem mem_indexSetInsert {EI : Type} [DecidableEq EI] (s : List EI) (x y : EI) :
    y ∈ indexSetInsert s x ↔ y ∈ s ∨ y = x := by
  unfold indexSetInsert
  by_cases h : x ∈ s
  · simp only [if_pos h]
    exact ⟨Or.inl, fun hy => hy.elim id (fun e => e ▸ h)⟩
  · simp [if_neg h]

theorem nodup_indexSetInsert {EI : Type} [DecidableEq EI] (s : List EI) (x : EI)
    (h : s.Nodup) : (indexSetInsert s x).Nodup := by
  unfold indexSetInsert
  by_cases hx : x ∈ s
  · simpa [if_pos hx]
  · simp [if_neg hx, List.nodup_append, h, hx]

theorem mem_foldl_indexSetInsert {EI : Type} [DecidableEq EI] (l : List EI) :
    ∀ (acc : List EI) (y : EI), y ∈ l.foldl indexSetInsert acc ↔ y ∈ acc ∨ y ∈ l := by
  induction l with
  | nil => simp
  | cons x xs ih =>
    intro acc y
    simp only [List.foldl_cons, ih, mem_indexSetInsert, List.mem_cons]
    tauto

theorem nodup_foldl_indexSetInsert {EI : Type} [DecidableEq EI] (l : List EI) :
    ∀ acc : List EI, acc.Nodup → (l.foldl indexSetInsert acc).Nodup := by
  induction l with
  | nil => intro acc h; simpa
  | cons x xs ih => intro acc h; exact ih _ (nodup_indexSetInsert _ _ h)

theorem mem_indexSetFromList {EI : Type} [DecidableEq EI] (l : List EI) (y : EI) :
    y ∈ indexSetFromList l ↔ y ∈ l := by
  simp [indexSetFromList, mem_foldl_indexSetInsert]

theorem nodup_indexSetFromList {EI : Type} [DecidableEq EI] (l : List EI) :
    (indexSetFromList l).Nodup :=
  nodup_foldl_indexSetInsert l [] List.nodup_nil

theorem length_indexSetFromList {EI : Type} [DecidableEq EI] (l : List EI) :
    (indexSetFromList l).length = l.toFinset.card := by
  have h1 : (indexSetFromList l).toFinset = l.toFinset := by
    ext x
    simp [List.mem_toFinset, mem_indexSetFromList]
  have h2 := List.toFinset_card_of_nodup (nodup_indexSetFromList l)
  rw [← h2, h1]

end Weasel

namespace Weasel

/-! ## Claim theorems -/

/-- C3: for every entropy model state and every pair of values, generation
is symmetric in its two operands (starting from the same model state), and
on a pair of equal operands it returns that value with the model untouched
and without invoking the underlying rules generator (the result does not
depend on `rules`). -/
theorem entropy_generate_symm_and_diag {α μ : Type} [PartialOrder α]
    [@DecidableRel α (· ≤ ·)] (rules : μ → α → α → μ × α) (model : μ) :
    (∀ low high : α,
      Entropy.generate rules model low high = Entropy.generate rules model high low) ∧
    (∀ x : α, Entropy.generate rules model x x = some (model, x)) := by
  constructor
  · intro low high
    unfold Entropy.generate pcmp
    by_cases h1 : low ≤ high <;> by_cases h2 : high ≤ low <;>
      simp only [if_pos, if_neg, h1, h2, if_true, if_false]
    exact congrArg (fun z => some (model, z)) (le_antisymm h1 h2)
  · intro x
    unfold Entropy.generate pcmp
    simp

/-- C4: entropy generation panics exactly on an incomparable pair of
operands, and whenever it returns a value it either returned the model and
the left operand untouched (the equal case, no rules invocation) or it
invoked the underlying rules generator on an ordered pair `a < b`. -/
theorem entropy_generate_panic_iff {α μ : Type} [PartialOrder α]
    [@DecidableRel α (· ≤ ·)] (rules : μ → α → α → μ × α) (model : μ)
    (low high : α) :
    (Entropy.generate rules model low high = none ↔ ¬low ≤ high ∧ ¬high ≤ low) ∧
    (∀ r, Entropy.generate rules model low high = some r →
      r = (model, low) ∨ ∃ a b : α, a < b ∧ r = rules model a b) := by
  unfold Entropy.generate pcmp
  by_cases h1 : low ≤ high <;> by_cases h2 : high ≤ low <;>
    simp only [if_pos, if_neg, h1, h2, if_true, if_false] <;>
    constructor
  · simp [h1]
  · intro r hr
    exact Or.inl (Option.some.inj hr).symm
  · simp [h2]
  · intro r hr
    exact Or.inr ⟨low, high, lt_iff_le_not_le.mpr ⟨h1, h2⟩, (Option.some.inj hr).symm⟩
  · simp [h1]
  · intro r hr
    exact Or.inr ⟨high, low, lt_iff_le_not_le.mpr ⟨h2, h1⟩, (Option.some.inj hr).symm⟩
  · simp [h1, h2]
  · intro r hr
    cases hr

/-- Witness for C4 at concrete inputs: the incomparable pair
`(left, right)` of the diamond poset makes generation panic, and on the
naturals `1 < 3` the generator is invoked with the ordered pair. -/
theorem entropy_generate_panic_iff_witness :
    (Entropy.generate (fun (m : Nat) (x _ : Diamond) => (m + 1, x)) 0
        Diamond.left Diamond.right = none) ∧
    (((1 : Nat), (4 : Nat)) = ((0 : Nat), (1 : Nat)) ∨
      ∃ a b : Nat, a < b ∧ ((1 : Nat), (4 : Nat)) =
        (fun (m a b : Nat) => (m + 1, a + b)) 0 a b) := by
  constructor
  · exact (entropy_generate_panic_iff (fun (m : Nat) (x _ : Diamond) => (m + 1, x)) 0
      Diamond.left Diamond.right).1.mpr (by decide)
  · exact (entropy_generate_panic_iff (fun (m a b : Nat) => (m + 1, a + b)) 0 1 3).2
      (1, 4) (by decide)

end Weasel

namespace Weasel

/-- C5: `StartRound` verification fails with the round-in-progress error
whenever the state is `Started`, `EndRound` verification fails with the
no-round-in-progress error whenever the state is `Ready`, and under the
verify-before-apply pipeline contract a completed `StartRound` moves
`Ready` to `Started` while a completed `EndRound` moves `Started` to
`Ready`. -/
theorem round_state_gate {EI A σ : Type} [DecidableEq EI]
    (b : RoundBattle EI A σ) (ids : List EI) :
    (∀ s, b.roundState = RoundState.Started s →
      StartRound.verify b ids = Except.error RoundError.RoundInProgress) ∧
    (b.roundState = RoundState.Ready →
      EndRound.verify b = Except.error RoundError.NoRoundInProgress) ∧
    (∀ b', StartRound.process b ids = Except.ok (some b') →
      b.roundState = RoundState.Ready ∧ ∃ s, b'.roundState = RoundState.Started s) ∧
    (∀ b', EndRound.process b = Except.ok (some b') →
      (∃ s, b.roundState = RoundState.Started s) ∧ b'.roundState = RoundState.Ready) := by
  refine ⟨?_, ?_, ?_, ?_⟩
  · intro s hs
    unfold StartRound.verify
    rw [hs]
  · intro hr
    unfold EndRound.verify
    rw [hr]
  · intro b' h
    unfold StartRound.process StartRound.verify at h
    cases hst : b.roundState with
    | Started s => rw [hst] at h; simp at h
    | Ready =>
      rw [hst] at h
      refine ⟨rfl, ?_⟩
      cases hv : verifyActors b ids with
      | error e => rw [hv] at h; simp at h
      | ok u =>
        rw [hv] at h
        simp only [Except.ok.injEq] at h
        unfold StartRound.apply at h
        cases hl : startLoop b b.ruleState (indexSetFromList ids) with
        | none => rw [hl] at h; simp at h
        | some st =>
          rw [hl] at h
          simp only [Option.some.injEq] at h
          subst h
          exact ⟨indexSetFromList ids, rfl⟩
  · intro b' h
    unfold EndRound.process EndRound.verify at h
    cases hst : b.roundState with
    | Ready => rw [hst] at h; simp at h
    | Started actors =>
      rw [hst] at h
      simp only [Except.ok.injEq] at h
      unfold EndRound.apply at h
      rw [hst] at h
      dsimp only at h
      cases hl : endLoop b b.ruleState actors with
      | none => rw [hl] at h; simp at h
      | some st =>
        rw [hl] at h
        simp only [Option.some.injEq] at h
        subst h
        exact ⟨⟨actors, rfl⟩, rfl⟩

/-- Witness for C5 at concrete inputs: with a round in progress,
`StartRound` verification reports the round-in-progress error, and with
no round in progress, `EndRound` verification reports the
no-round-in-progress error. -/
theorem round_state_gate_witness :
    (StartRound.verify
      ({ roundState := RoundState.Started [0], isActor := fun _ => true,
         actor := fun _ => some (), eligible := fun _ => true, roundsStarted := 0,
         ruleState := (), startCallbacks := fun s _ => s,
         endCallbacks := fun s _ => s } : RoundBattle Nat Unit Unit) [1] =
      Except.error RoundError.RoundInProgress) ∧
    (EndRound.verify
      ({ roundState := RoundState.Ready, isActor := fun _ => true,
         actor := fun _ => some (), eligible := fun _ => true, roundsStarted := 0,
         ruleState := (), startCallbacks := fun s _ => s,
         endCallbacks := fun s _ => s } : RoundBattle Nat Unit Unit) =
      Except.error RoundError.NoRoundInProgress) := by
  constructor
  · exact (round_state_gate _ [1]).1 [0] rfl
  · exact (round_state_gate _ ([] : List Nat)).2.1 rfl

end Weasel

namespace Weasel

theorem verifyActors_ok_actor {EI A σ : Type} (b : RoundBattle EI A σ) :
    ∀ ids : List EI, verifyActors b ids = Except.ok () →
      ∀ id ∈ ids, ∃ a, b.actor id = some a := by
  intro ids
  induction ids with
  | nil => intro _ id hid; cases hid
  | cons x xs ih =>
    intro h id hid
    unfold verifyActors at h
    by_cases hx : b.isActor x
    · rw [if_neg (by simp [hx])] at h
      cases hA : b.actor x with
      | none => rw [hA] at h; cases h
      | some a =>
        rw [hA] at h
        dsimp only at h
        by_cases he : b.eligible a
        · rw [if_neg (by simp [he])] at h
          rcases List.mem_cons.mp hid with rfl | hmem
          · exact ⟨a, hA⟩
          · exact ih h id hmem
        · rw [if_pos (by simp [he])] at h; cases h
    · rw [if_pos (by simp [hx])] at h; cases h

theorem startLoop_isSome {EI A σ : Type} (b : RoundBattle EI A σ) :
    ∀ l : List EI, (∀ id ∈ l, ∃ a, b.actor id = some a) →
      ∀ st : σ, ∃ st', startLoop b st l = some st' := by
  intro l
  induction l with
  | nil => intro _ st; exact ⟨st, rfl⟩
  | cons x xs ih =>
    intro h st
    obtain ⟨a, ha⟩ := h x (List.mem_cons_self x xs)
    obtain ⟨st', hst⟩ := ih (fun id hid => h id (List.mem_cons_of_mem _ hid))
      (b.startCallbacks st a)
    refine ⟨st', ?_⟩
    unfold startLoop
    rw [ha]
    exact hst

/-- C6: for every id list (repeats allowed) passing verification, applying
`StartRound` succeeds and moves the round state to `Started` holding the
insertion-ordered deduplication of the list: a duplicate-free list with
exactly the listed members, whose size is the number of distinct ids in
the list; the rounds-started counter is incremented by one. -/
theorem start_round_dedup {EI A σ : Type} [DecidableEq EI]
    (b : RoundBattle EI A σ) (ids : List EI)
    (h : StartRound.verify b ids = Except.ok ()) :
    ∃ b', StartRound.apply b ids = some b' ∧
      b'.roundState = RoundState.Started (indexSetFromList ids) ∧
      (indexSetFromList ids).Nodup ∧
      (∀ x, x ∈ indexSetFromList ids ↔ x ∈ ids) ∧
      (indexSetFromList ids).length = ids.toFinset.card ∧
      b'.roundsStarted = b.roundsStarted + 1 := by
  have hva : verifyActors b ids = Except.ok () := by
    unfold StartRound.verify at h
    cases hst : b.roundState with
    | Started s => rw [hst] at h; cases h
    | Ready => rw [hst] at h; exact h
  have hact : ∀ id ∈ indexSetFromList ids, ∃ a, b.actor id = some a := by
    intro id hid
    exact verifyActors_ok_actor b ids hva id ((mem_indexSetFromList ids id).mp hid)
  obtain ⟨st', hl⟩ := startLoop_isSome b (indexSetFromList ids) hact b.ruleState
  have happ : StartRound.apply b ids =
      some { b with
             roundState := RoundState.Started (indexSetFromList ids)
             roundsStarted := b.roundsStarted + 1
             ruleState := st' } := by
    unfold StartRound.apply
    rw [hl]
  exact ⟨_, happ, rfl, nodup_indexSetFromList ids, mem_indexSetFromList ids,
    length_indexSetFromList ids, rfl⟩

/-- Witness for C6 at a concrete input: starting a round with the id list
`[1, 2, 1]` yields the `Started` set `[1, 2]` of size two and bumps the
counter from 5 to 6. -/
theorem start_round_dedup_witness :
    ∃ b', StartRound.apply
        ({ roundState := RoundState.Ready, isActor := fun _ => true,
           actor := fun _ => some (), eligible := fun _ => true, roundsStarted := 5,
           ruleState := (), startCallbacks := fun s _ => s,
           endCallbacks := fun s _ => s } : RoundBattle Nat Unit Unit) [1, 2, 1] =
        some b' ∧
      b'.roundState = RoundState.Started (indexSetFromList [1, 2, 1]) ∧
      (indexSetFromList [1, 2, 1]).Nodup ∧
      (∀ x, x ∈ indexSetFromList [1, 2, 1] ↔ x ∈ [1, 2, 1]) ∧
      (indexSetFromList [1, 2, 1]).length = [1, 2, 1].toFinset.card ∧
      b'.roundsStarted = 5 + 1 :=
  start_round_dedup _ [1, 2, 1] rfl

end Weasel

namespace Weasel

theorem sendEventsLoop_error (s : CSink) :
    ∀ (events : List Nat) (err : SinkError),
      sendEventsLoop s events = some err → err = SinkError.EventSinkSendError := by
  intro events
  induction events with
  | nil => intro err h; cases h
  | cons ev rest ih =>
    intro err h
    unfold sendEventsLoop at h
    by_cases hok : s.sendOk ev
    · rw [if_pos hok] at h
      exact ih err h
    · rw [if_neg hok] at h
      exact (Option.some.inj h).symm

theorem send_fst_ne_invalid_range (sinks : List CSink) (id : Nat)
    (events : List Nat) (a b c : Nat) :
    (MultiClientSink.send sinks id events).1 ≠
      some (SinkError.InvalidEventRange a b c) := by
  unfold MultiClientSink.send
  cases hf : sinks.findIdx? (fun e => e.id == id) with
  | none => simp
  | some idx =>
    cases hg : sinks[idx]? with
    | none => simp [hg]
    | some s' =>
      cases hl : sendEventsLoop s' events with
      | none => simp [hg, hl]
      | some err =>
        have herr := sendEventsLoop_error s' events err hl
        subst herr
        simp [hg, hl]

/-- C7: registering a sink whose id collides with an already registered
sink fails with the duplicated-sink error and leaves the registry
unchanged (same sinks, the existing sink is not replaced); a sink with a
fresh id is always accepted and appended; `add_sink_range` on a valid
range rejects a duplicate the same way, leaving the registry unchanged
and disconnecting nobody. -/
theorem duplicate_sink_rejected (sinks : List CSink) (s : CSink) :
    ((∃ e ∈ sinks, e.id = s.id) →
      MultiClientSink.add sinks s =
        (some (SinkError.DuplicatedEventSink s.id), sinks)) ∧
    ((∀ e ∈ sinks, e.id ≠ s.id) →
      MultiClientSink.add sinks s = (none, sinks ++ [s])) ∧
    (∀ (history : List Nat) (first last : Nat) (r : Nat × Nat),
      normalize_range first last history.length = Except.ok r →
      (∃ e ∈ sinks, e.id = s.id) →
      add_sink_range sinks history s first last =
        (some (SinkError.DuplicatedEventSink s.id), sinks, [])) := by
  have hadd : (∃ e ∈ sinks, e.id = s.id) →
      MultiClientSink.add sinks s =
        (some (SinkError.DuplicatedEventSink s.id), sinks) := by
    intro hdup
    unfold MultiClientSink.add
    rw [if_pos]
    simp only [List.any_eq_true, beq_iff_eq]
    exact hdup
  refine ⟨hadd, ?_, ?_⟩
  · intro hfresh
    unfold MultiClientSink.add
    rw [if_neg]
    simp only [List.any_eq_true, beq_iff_eq]
    rintro ⟨e, he, heq⟩
    exact hfresh e he heq
  · intro history first last r hr hdup
    unfold add_sink_range
    rw [hr]
    dsimp only
    rw [hadd hdup]

/-- Witness for C7 at concrete inputs: a second sink with id 0 is
rejected and the one-sink registry is unchanged. -/
theorem duplicate_sink_rejected_witness :
    MultiClientSink.add [⟨0, fun _ => true⟩] ⟨0, fun _ => false⟩ =
      (some (SinkError.DuplicatedEventSink 0), [⟨0, fun _ => true⟩]) :=
  (duplicate_sink_rejected [⟨0, fun _ => true⟩] ⟨0, fun _ => false⟩).1
    ⟨⟨0, fun _ => true⟩, List.mem_singleton.mpr rfl, rfl⟩

/-- C8: an event-id range request `[first, last)` against the history is
rejected with the invalid-range error exactly when `first > last` or
`last` exceeds the history length — for `normalize_range` itself, for
`send_range` and for `add_sink_range` — and an empty range with
`first = last ≤ length` is accepted. -/
theorem range_request_rejected_iff (first last : Nat) (history : List Nat)
    (sinks : List CSink) (id : Nat) (s : CSink) :
    ((normalize_range first last history.length =
        Except.error (SinkError.InvalidEventRange first last history.length)) ↔
      (first > last ∨ last > history.length)) ∧
    (((send_range sinks history id first last).1 =
        some (SinkError.InvalidEventRange first last history.length)) ↔
      (first > last ∨ last > history.length)) ∧
    (((add_sink_range sinks history s first last).1 =
        some (SinkError.InvalidEventRange first last history.length)) ↔
      (first > last ∨ last > history.length)) ∧
    (first = last → last ≤ history.length →
      normalize_range first last history.length = Except.ok (first, last)) := by
  by_cases hc : first > last ∨ last > history.length
  · have hn : normalize_range first last history.length =
        Except.error (SinkError.InvalidEventRange first last history.length) := by
      unfold normalize_range
      rw [if_pos hc]
    refine ⟨⟨fun _ => hc, fun _ => hn⟩, ⟨fun _ => hc, fun _ => ?_⟩,
      ⟨fun _ => hc, fun _ => ?_⟩, ?_⟩
    · unfold send_range
      rw [hn]
    · unfold add_sink_range
      rw [hn]
    · intro heq hle
      exfalso
      subst heq
      rcases hc with h | h
      · exact lt_irrefl _ h
      · exact absurd hle (not_le.mpr h)
  · have hn : normalize_range first last history.length =
        Except.ok (first, last) := by
      unfold normalize_range
      rw [if_neg hc]
    refine ⟨⟨?_, fun h => absurd h hc⟩, ⟨?_, fun h => absurd h hc⟩,
      ⟨?_, fun h => absurd h hc⟩, fun _ _ => hn⟩
    · intro h
      rw [hn] at h
      cases h
    · intro h
      unfold send_range at h
      rw [hn] at h
      dsimp only at h
      exact absurd h (send_fst_ne_invalid_range sinks id
        (versioned_events history (first, last)) first last history.length)
    · intro h
      unfold add_sink_range at h
      rw [hn] at h
      dsimp only at h
      cases hadd : MultiClientSink.add sinks s with
      | mk err sinks' =>
        rw [hadd] at h
        cases err with
        | none =>
          dsimp only at h
          exact absurd h (send_fst_ne_invalid_range sinks' s.id
            (versioned_events history (first, last)) first last history.length)
        | some e =>
          dsimp only at h
          unfold MultiClientSink.add at hadd
          by_cases hdup : sinks.any (fun e => e.id == s.id)
          · rw [if_pos hdup] at hadd
            have he : SinkError.DuplicatedEventSink s.id = e :=
              Option.some.inj (congrArg Prod.fst hadd)
            rw [← he] at h
            simp at h
          · rw [if_neg hdup] at hadd
            exact Option.noConfusion (congrArg Prod.fst hadd)

/-- Witness for C8 at concrete inputs: the empty range `[2, 2)` against a
history of length 3 is accepted. -/
theorem range_request_rejected_iff_witness :
    normalize_range 2 2 (List.length [10, 11, 12]) = Except.ok (2, 2) :=
  (range_request_rejected_iff 2 2 [10, 11, 12] [] 0 ⟨0, fun _ => true⟩).2.2.2
    rfl (by decide)

end Weasel

namespace Weasel

/-- C2 (evaluation at the failing inputs): with two registered sinks whose
`send` both fail, the broadcast panics with an index out of bounds
(embedded `none`); with the failing sinks at positions 0 and 1 followed by
a healthy sink with id 2, the broadcast disconnects sink 0 and then the
healthy sink 2, leaving the still-failing sink 1 registered; only with at
most one failing sink (third equation, matching the in-repo unit test)
does the broadcast remove exactly the failing sink. -/
theorem send_all_simultaneous_failures :
    MultiClientSink.send_all [⟨0, fun _ => false⟩, ⟨1, fun _ => false⟩] 7 = none ∧
    MultiClientSink.send_all
        [⟨0, fun _ => false⟩, ⟨1, fun _ => false⟩, ⟨2, fun _ => true⟩] 7 =
      some ([⟨1, fun _ => false⟩], [0, 2]) ∧
    MultiClientSink.send_all [⟨0, fun _ => true⟩, ⟨1, fun _ => false⟩] 7 =
      some ([⟨0, fun _ => true⟩], [1]) :=
  ⟨rfl, rfl, rfl⟩

/-- C9: wrapping any trigger first in the `Conditional` decorator and then
in the `Originated` decorator yields a single prototype carrying both the
condition and the forced origin, with the inner event payload unchanged. -/
theorem decorators_stack {E W : Type} (t : Trigger E W) (c : W → Bool) (o : Nat) :
    (Originated.wrap (Conditional.wrap t c) o).prototype =
      { origin := some o, event := t.prototype.event, condition := some c } :=
  rfl

/-- C10: every embedded event implementation that provides no `rights`
override — `ResetEntropy`, `ResetRounds`, `EnvironmentRound`,
`CreateObject`, `RemoveObject` — carries the trait default
`EventRights::Server`, which the server-side rights check denies to every
player; `DummyEvent` overrides it to `EventRights::None`, which is allowed
to every player. -/
theorem default_rights_server (TId : Type) [DecidableEq TId] :
    (ResetEntropy.impl TId).rights = EventRights.Server ∧
    (ResetRounds.impl TId).rights = EventRights.Server ∧
    (EnvironmentRound.impl TId).rights = EventRights.Server ∧
    (CreateObject.impl TId).rights = EventRights.Server ∧
    (RemoveObject.impl TId).rights = EventRights.Server ∧
    (DummyEvent.impl TId).rights = EventRights.None ∧
    (∀ playerTeams : List TId,
      rightsAllowPlayer playerTeams (ResetEntropy.impl TId).rights = false) ∧
    (∀ playerTeams : List TId,
      rightsAllowPlayer playerTeams (DummyEvent.impl TId).rights = true) :=
  ⟨rfl, rfl, rfl, rfl, rfl, rfl, fun _ => rfl, fun _ => rfl⟩

/-- C1 (counterexample): firing a prototype whose condition predicate is
false at processing time does not yield a success — the result is the
`ConditionUnsatisfied` failure, exactly as the `Conditional` doctest in
src/src/event.rs lines 745-758 asserts. -/
theorem conditional_false_fire_not_success :
    (processPrototype ({ world := (), history := [] } : PipelineState Unit)
        { origin := none, label := 0, verifyOk := fun _ => true,
          applyFn := fun w => w, condition := some (fun _ => false) }).1 =
      some PipelineError.ConditionUnsatisfied :=
  rfl

/-- C1 (amended): a prototype that passes verification but whose condition
predicate is false at processing time is not committed — the event never
appears in History and no EventId is consumed (the state is returned
unchanged) — but the process/fire result reported to the caller is the
`ConditionUnsatisfied` failure, not a success. -/
theorem conditional_false_dropped {W : Type} (s : PipelineState W)
    (p : PipelinePrototype W) (c : W → Bool) (h1 : p.condition = some c)
    (h2 : c s.world = false) (h3 : p.verifyOk s.world = true) :
    processPrototype s p = (some PipelineError.ConditionUnsatisfied, s) := by
  unfold processPrototype
  rw [h3, h1]
  simp [h2]

/-- Witness for the amended C1 at a concrete input: a false-conditioned
prototype against a one-event history is rejected with
`ConditionUnsatisfied` and the history still holds exactly its one
event. -/
theorem conditional_false_dropped_witness :
    processPrototype ({ world := (), history := [(0, 5)] } : PipelineState Unit)
      { origin := none, label := 9, verifyOk := fun _ => true,
        applyFn := fun w => w, condition := some (fun _ => false) } =
      (some PipelineError.ConditionUnsatisfied,
        { world := (), history := [(0, 5)] }) :=
  conditional_false_dropped _ _ (fun _ => false) rfl rfl rfl

end Weasel
